import Mathlib

/-!
Verification of the Japaneasy study app's synchronization core.

Shallow embedding of the relevant program parts:
* the data model (`src/types.ts`: `Word`, `GrammarPoint`),
* the Local Store (`src/App.tsx` lines 1255-1320, the Dexie-backed
  `JapaneseDatabase` class: `getAllWords`, `getAllGrammar`,
  `bulkSaveWords`, `bulkSaveGrammar`, `updateWord`, `updateGrammar`),
* the Remote Store Adapter (`src/App.tsx` lines 1336-1461, the
  `supabaseService` object: `fetchWords`, `upsertWord`, `fetchGrammar`,
  `upsertGrammar`),
* the Sync Coordinator (`src/App.tsx` lines 673-714, `syncWithCloud`),
* mastery updates and record creation (`src/App.tsx` lines 731-753 in
  `handleFileUpload` and lines 813-824 in `updateMastery`).

Stores are modelled as lists of records; keyed `put`/`upsert` is
insert-or-replace by the record's id, matching Dexie `Table.put` and the
backend upsert keyed by the `id` primary key.  Machine `number`
timestamps are modelled as `Nat` (epoch milliseconds; no arithmetic is
performed on them, so overflow is irrelevant).  Fallible remote calls are
modelled with `Except`, with failure outcomes injected by an explicit
fault model, since the backend itself is outside the repository.
-/

/-- Verb conjugation set (`types.ts` lines 11-17). -/
structure Conjugations where
  dictionary : String
  masu : String
  te : String
  nai : String
  ta : String
deriving DecidableEq, Repr

/-- Part-of-speech tag (`types.ts` line 7). -/
inductive WordType
  | verb
  | noun
  | adjective
  | adverb
  | particle
  | other
deriving DecidableEq, Repr

/-- Vocabulary entry (`types.ts` lines 2-21).  The `example` field of the
source is written `«example»` because `example` is a Lean keyword. -/
structure Word where
  id : String
  kanji : String
  furigana : String
  meaning : String
  type : WordType
  «example» : String
  exampleFurigana : String
  exampleTranslation : String
  conjugations : Option Conjugations
  addedAt : Nat
  isSaved : Bool
  masteryLevel : Nat
deriving DecidableEq, Repr

/-- Grammar entry (`types.ts` lines 23-30). -/
structure GrammarPoint where
  id : String
  point : String
  explanation : String
  «example» : String
  addedAt : Nat
  rating : Nat
deriving DecidableEq, Repr

/-! ### Local Store (`JapaneseDatabase`, App.tsx lines 1255-1320)

The Dexie tables `words` and `grammar` are keyed by `id`.  A table is a
list of records; `put` is insert-or-replace by id. -/

/-- Insert-or-replace by key: Dexie `Table.put` semantics.  If a record
with the same key exists it is overwritten in place, otherwise the new
record is appended. -/
def putByKey {α : Type} (key : α → String) (xs : List α) (x : α) : List α :=
  if xs.any (fun y => key y == key x) then
    xs.map (fun y => if key y == key x then x else y)
  else
    xs ++ [x]

/-- `bulkPut`: put each record in order (Dexie `Table.bulkPut`). -/
def bulkPutByKey {α : Type} (key : α → String) (xs : List α) (news : List α) : List α :=
  news.foldl (putByKey key) xs

/-- `db.bulkSaveWords(words)` = `this.words.bulkPut(words)` (App.tsx 1279-1281). -/
def bulkSaveWords (store news : List Word) : List Word :=
  bulkPutByKey Word.id store news

/-- `db.bulkSaveGrammar(grammar)` = `this.grammar.bulkPut(grammar)` (App.tsx 1291-1293). -/
def bulkSaveGrammar (store news : List GrammarPoint) : List GrammarPoint :=
  bulkPutByKey GrammarPoint.id store news

/-- Descending creation-time order on words: `a` before `b` when
`b.addedAt ≤ a.addedAt`. -/
def wordDesc (a b : Word) : Prop := b.addedAt ≤ a.addedAt

instance : DecidableRel wordDesc := fun a b => Nat.decLe b.addedAt a.addedAt

instance : IsTotal Word wordDesc := ⟨fun a b => Nat.le_total b.addedAt a.addedAt⟩

instance : IsTrans Word wordDesc := ⟨fun _ _ _ h h' => Nat.le_trans h' h⟩

/-- Descending creation-time order on grammar points. -/
def grammarDesc (a b : GrammarPoint) : Prop := b.addedAt ≤ a.addedAt

instance : DecidableRel grammarDesc := fun a b => Nat.decLe b.addedAt a.addedAt

instance : IsTotal GrammarPoint grammarDesc := ⟨fun a b => Nat.le_total b.addedAt a.addedAt⟩

instance : IsTrans GrammarPoint grammarDesc := ⟨fun _ _ _ h h' => Nat.le_trans h' h⟩

/-- `db.getAllWords()` = `this.words.reverse().sortBy('addedAt')`
(App.tsx 1267-1269): all stored words sorted by `addedAt` descending
(Dexie: `sortBy` ascending combined with the `reverse` flag). -/
def getAllWords (store : List Word) : List Word :=
  List.insertionSort wordDesc store

/-- `db.getAllGrammar()` = `this.grammar.reverse().sortBy('addedAt')`
(App.tsx 1271-1273). -/
def getAllGrammar (store : List GrammarPoint) : List GrammarPoint :=
  List.insertionSort grammarDesc store

/-- A `Partial<Word>` update object: each field optionally present
(TypeScript `Partial` makes every field optional, the primary key
included). -/
structure WordPatch where
  id : Option String := none
  kanji : Option String := none
  furigana : Option String := none
  meaning : Option String := none
  type : Option WordType := none
  «example» : Option String := none
  exampleFurigana : Option String := none
  exampleTranslation : Option String := none
  conjugations : Option (Option Conjugations) := none
  addedAt : Option Nat := none
  isSaved : Option Bool := none
  masteryLevel : Option Nat := none
deriving DecidableEq, Repr

/-- Merge the supplied fields of a partial update into a word (Dexie
`Table.update` key-path merge). -/
def applyWordPatch (w : Word) (p : WordPatch) : Word :=
  { id := p.id.getD w.id
    kanji := p.kanji.getD w.kanji
    furigana := p.furigana.getD w.furigana
    meaning := p.meaning.getD w.meaning
    type := p.type.getD w.type
    «example» := p.«example».getD w.«example»
    exampleFurigana := p.exampleFurigana.getD w.exampleFurigana
    exampleTranslation := p.exampleTranslation.getD w.exampleTranslation
    conjugations := p.conjugations.getD w.conjugations
    addedAt := p.addedAt.getD w.addedAt
    isSaved := p.isSaved.getD w.isSaved
    masteryLevel := p.masteryLevel.getD w.masteryLevel }

/-- `db.updateWord(id, updates)` = `this.words.update(id, updates)`
(App.tsx 1283-1285): merge the supplied fields into the record keyed
`id`; if no record has that key nothing changes and no error is raised
(Dexie `update` resolves with 0). -/
def updateWord (store : List Word) (wid : String) (p : WordPatch) : List Word :=
  store.map (fun w => if w.id == wid then applyWordPatch w p else w)

/-- A `Partial<GrammarPoint>` update object. -/
structure GrammarPatch where
  id : Option String := none
  point : Option String := none
  explanation : Option String := none
  «example» : Option String := none
  addedAt : Option Nat := none
  rating : Option Nat := none
deriving DecidableEq, Repr

/-- Merge the supplied fields of a partial update into a grammar point. -/
def applyGrammarPatch (g : GrammarPoint) (p : GrammarPatch) : GrammarPoint :=
  { id := p.id.getD g.id
    point := p.point.getD g.point
    explanation := p.explanation.getD g.explanation
    «example» := p.«example».getD g.«example»
    addedAt := p.addedAt.getD g.addedAt
    rating := p.rating.getD g.rating }

/-- `db.updateGrammar(id, updates)` = `this.grammar.update(id, updates)`
(App.tsx 1295-1297). -/
def updateGrammar (store : List GrammarPoint) (gid : String) (p : GrammarPatch) :
    List GrammarPoint :=
  store.map (fun g => if g.id == gid then applyGrammarPatch g p else g)

/-! ### Remote Store Adapter (`supabaseService`, App.tsx lines 1336-1461)

Backend rows are the records of the `words` and `grammar_points` tables,
keyed by the `id` primary key; every row also carries the owning
account's `user_id` column.  Column names are snake_case as written in
`upsertWord` / `upsertGrammar`. -/

/-- A row of the backend `words` table, exactly the object built by
`supabaseService.upsertWord` (App.tsx 1380-1394). -/
structure WordRow where
  id : String
  user_id : String
  kanji : String
  furigana : String
  meaning : String
  type : WordType
  «example» : String
  example_furigana : String
  example_translation : String
  conjugations : Option Conjugations
  added_at : Nat
  is_saved : Bool
  mastery_level : Nat
deriving DecidableEq, Repr

/-- A row of the backend `grammar_points` table, exactly the object built
by `supabaseService.upsertGrammar` (App.tsx 1422-1430). -/
structure GrammarRow where
  id : String
  user_id : String
  point : String
  explanation : String
  «example» : String
  added_at : Nat
  rating : Nat
deriving DecidableEq, Repr

/-- The camelCase-to-snake_case translation performed by
`supabaseService.upsertWord` when building the upserted row
(App.tsx 1380-1394). -/
def wordToRow (uid : String) (w : Word) : WordRow :=
  { id := w.id
    user_id := uid
    kanji := w.kanji
    furigana := w.furigana
    meaning := w.meaning
    type := w.type
    «example» := w.«example»
    example_furigana := w.exampleFurigana
    example_translation := w.exampleTranslation
    conjugations := w.conjugations
    added_at := w.addedAt
    is_saved := w.isSaved
    mastery_level := w.masteryLevel }

/-- The snake_case-to-camelCase translation performed by
`supabaseService.fetchWords` on each fetched row (App.tsx 1365-1372):
spread the row, then set `exampleFurigana`, `exampleTranslation`,
`addedAt`, `masteryLevel`, `isSaved` from the snake_case columns. -/
def rowToWord (r : WordRow) : Word :=
  { id := r.id
    kanji := r.kanji
    furigana := r.furigana
    meaning := r.meaning
    type := r.type
    «example» := r.«example»
    exampleFurigana := r.example_furigana
    exampleTranslation := r.example_translation
    conjugations := r.conjugations
    addedAt := r.added_at
    isSaved := r.is_saved
    masteryLevel := r.mastery_level }

/-- Translation performed by `supabaseService.upsertGrammar`
(App.tsx 1422-1430). -/
def grammarToRow (uid : String) (g : GrammarPoint) : GrammarRow :=
  { id := g.id
    user_id := uid
    point := g.point
    explanation := g.explanation
    «example» := g.«example»
    added_at := g.addedAt
    rating := g.rating }

/-- Translation performed by `supabaseService.fetchGrammar` on each
fetched row (App.tsx 1411-1414): spread the row, then set `addedAt`. -/
def rowToGrammar (r : GrammarRow) : GrammarPoint :=
  { id := r.id
    point := r.point
    explanation := r.explanation
    «example» := r.«example»
    addedAt := r.added_at
    rating := r.rating }

/-- Descending `added_at` order on word rows (the
`order('added_at', { ascending: false })` clause of `fetchWords`). -/
def wordRowDesc (a b : WordRow) : Prop := b.added_at ≤ a.added_at

instance : DecidableRel wordRowDesc := fun a b => Nat.decLe b.added_at a.added_at

instance : IsTotal WordRow wordRowDesc := ⟨fun a b => Nat.le_total b.added_at a.added_at⟩

instance : IsTrans WordRow wordRowDesc := ⟨fun _ _ _ h h' => Nat.le_trans h' h⟩

/-- Descending `added_at` order on grammar rows. -/
def grammarRowDesc (a b : GrammarRow) : Prop := b.added_at ≤ a.added_at

instance : DecidableRel grammarRowDesc := fun a b => Nat.decLe b.added_at a.added_at

instance : IsTotal GrammarRow grammarRowDesc := ⟨fun a b => Nat.le_total b.added_at a.added_at⟩

instance : IsTrans GrammarRow grammarRowDesc := ⟨fun _ _ _ h h' => Nat.le_trans h' h⟩

/-- A backend error as caught by the app: the thrown object's `message`
and `details` fields (App.tsx line 705 reads `err?.message || err?.details`). -/
structure ErrInfo where
  message : String
  details : String
deriving DecidableEq, Repr

/-- The successful query of `fetchWords` (App.tsx 1357-1372): rows of the
`words` table with `user_id` equal to the current account, ordered by
`added_at` descending, each translated to the local `Word` shape. -/
def fetchWordsOk (table : List WordRow) (uid : String) : List Word :=
  (List.insertionSort wordRowDesc (table.filter (fun r => r.user_id == uid))).map rowToWord

/-- The successful query of `fetchGrammar` (App.tsx 1403-1414). -/
def fetchGrammarOk (table : List GrammarRow) (uid : String) : List GrammarPoint :=
  (List.insertionSort grammarRowDesc (table.filter (fun r => r.user_id == uid))).map rowToGrammar

/-- `supabaseService.fetchWords` (App.tsx 1352-1373).  `user` is the
result of `getCurrentUser()` (the active account id, if any); `fault`
injects a backend failure of the query (`if (error) throw error`).  With
no active account the function returns `[]` before ever querying. -/
def fetchWords (table : List WordRow) (user : Option String) (fault : Option ErrInfo) :
    Except ErrInfo (List Word) :=
  match user with
  | none => Except.ok []
  | some uid =>
    match fault with
    | some e => Except.error e
    | none => Except.ok (fetchWordsOk table uid)

/-- `supabaseService.fetchGrammar` (App.tsx 1398-1415). -/
def fetchGrammar (table : List GrammarRow) (user : Option String) (fault : Option ErrInfo) :
    Except ErrInfo (List GrammarPoint) :=
  match user with
  | none => Except.ok []
  | some uid =>
    match fault with
    | some e => Except.error e
    | none => Except.ok (fetchGrammarOk table uid)

/-- Effect of one `supabaseService.upsertWord` call on the backend table:
insert-or-replace keyed by the `id` primary key (App.tsx 1375-1396). -/
def remoteUpsertWord (table : List WordRow) (uid : String) (w : Word) : List WordRow :=
  putByKey WordRow.id table (wordToRow uid w)

/-- Effect of one `supabaseService.upsertGrammar` call on the backend
table (App.tsx 1417-1432). -/
def remoteUpsertGrammar (table : List GrammarRow) (uid : String) (g : GrammarPoint) :
    List GrammarRow :=
  putByKey GrammarRow.id table (grammarToRow uid g)

/-- Effect of the push step's word upserts (`localWords.map(w =>
supabaseService.upsertWord(w))`, App.tsx 685): successive upserts of
distinct-id records commute, so the jointly awaited concurrent calls are
modelled as a fold in issue order. -/
def pushWords (table : List WordRow) (uid : String) (ws : List Word) : List WordRow :=
  ws.foldl (fun t w => remoteUpsertWord t uid w) table

/-- Effect of the push step's grammar upserts (App.tsx 686). -/
def pushGrammar (table : List GrammarRow) (uid : String) (gs : List GrammarPoint) :
    List GrammarRow :=
  gs.foldl (fun t g => remoteUpsertGrammar t uid g) table

/-! ### Sync Coordinator (`syncWithCloud`, App.tsx lines 673-714)

The app state carries both stores, the in-memory working view
(`library` / `grammarLibrary` React state), the configuration flag, the
active session's account id (`getCurrentUser()`), the `isSyncing` flag
and the `lastSaved` timestamp string.  A run also produces a trace of the
store operations it invoked, used to state the no-extra-calls claims.

The adapter's `upsertWord` / `fetchWords` scope every request by
`getCurrentUser()` (the session), not by the `userId` argument of
`syncWithCloud`; that argument is only used for the initial null check.
A fault model injects the failure outcome of each fallible step: the
jointly awaited push (with, per collection, which of the concurrently
issued upserts had completed), the pull, and the two local bulk writes
(two independent Dexie transactions jointly awaited, so one can commit
while the other fails). -/

/-- Outcome of the push step (`await Promise.all([...upserts])`,
App.tsx 684-687).  On failure, `wordDone` / `grammarDone` tell which of
the concurrently issued upserts had taken effect on the backend. -/
inductive PushOutcome
  | ok
  | fail (e : ErrInfo) (wordDone : Word → Bool) (grammarDone : GrammarPoint → Bool)

/-- Outcome of the local bulk-write step (`await Promise.all([
db.bulkSaveWords(...), db.bulkSaveGrammar(...)])`, App.tsx 696-699).  On
failure, `wordsDone` / `grammarDone` tell which of the two per-table
Dexie transactions committed (at least one of them rejected). -/
inductive SaveOutcome
  | ok
  | fail (e : ErrInfo) (wordsDone : Bool) (grammarDone : Bool)

/-- Failure injection for one sync run. -/
structure FaultModel where
  push : PushOutcome
  pull : Option ErrInfo
  save : SaveOutcome

/-- The fault model of a run in which every step succeeds. -/
def noFault : FaultModel :=
  { push := PushOutcome.ok, pull := none, save := SaveOutcome.ok }

/-- Store operations a sync run invokes, in issue order. -/
inductive Ev
  | upsertWordRemote (w : Word)
  | upsertGrammarRemote (g : GrammarPoint)
  | fetchWordsRemote
  | fetchGrammarRemote
  | bulkSaveWordsLocal (ws : List Word)
  | bulkSaveGrammarLocal (gs : List GrammarPoint)
  | logError (msg : String)
  | alert (msg : String)
deriving DecidableEq, Repr

/-- The error message derived in the catch block (App.tsx 705):
`err?.message || err?.details || "未知同步錯誤"` with JavaScript string
falsiness (the empty string is falsy). -/
def errorMsgOf (e : ErrInfo) : String :=
  if e.message == "" then (if e.details == "" then "未知同步錯誤" else e.details)
  else e.message

/-- JavaScript `String.prototype.includes`: substring containment. -/
def strIncludes (s pat : String) : Bool :=
  decide (pat.data <:+: s.data)

/-- The configuration-signature test of the catch block (App.tsx 708):
`errorMsg.includes("policy") || errorMsg.includes("relation")`. -/
def hasConfigSignature (msg : String) : Bool :=
  strIncludes msg "policy" || strIncludes msg "relation"

/-- The alert text produced on a configuration-class failure
(App.tsx 709). -/
def alertText (msg : String) : String :=
  "雲端同步失敗: " ++ msg ++ "\n\n請檢查 Supabase 的 SQL 設定。"

/-- Events of the catch block (App.tsx 704-710): always log the error;
alert exactly when the message matches a configuration signature. -/
def failEvents (e : ErrInfo) : List Ev :=
  let msg := errorMsgOf e
  Ev.logError msg :: (if hasConfigSignature msg then [Ev.alert (alertText msg)] else [])

/-- Whole-application state relevant to the synchronization core. -/
structure AppState where
  localWords : List Word
  localGrammar : List GrammarPoint
  remoteWords : List WordRow
  remoteGrammar : List GrammarRow
  library : List Word
  grammarLibrary : List GrammarPoint
  configured : Bool
  sessionUser : Option String
  isSyncing : Bool
  lastSaved : Option String
deriving DecidableEq, Repr

/-- Push of a word list through `upsertWord`, which silently no-ops when
no account session is active (App.tsx 1377-1378). -/
def pushWordsS (table : List WordRow) (su : Option String) (ws : List Word) : List WordRow :=
  match su with
  | none => table
  | some uid => pushWords table uid ws

/-- Push of a grammar list through `upsertGrammar` (App.tsx 1419-1420). -/
def pushGrammarS (table : List GrammarRow) (su : Option String) (gs : List GrammarPoint) :
    List GrammarRow :=
  match su with
  | none => table
  | some uid => pushGrammar table uid gs

/-- The list `fetchWords` resolves with when the query does not fail:
empty with no session, else the account-scoped rows sorted by `added_at`
descending and translated (App.tsx 1352-1373). -/
def fetchWordsPure (table : List WordRow) (su : Option String) : List Word :=
  match su with
  | none => []
  | some uid => fetchWordsOk table uid

/-- The list `fetchGrammar` resolves with when the query does not fail
(App.tsx 1398-1415). -/
def fetchGrammarPure (table : List GrammarRow) (su : Option String) : List GrammarPoint :=
  match su with
  | none => []
  | some uid => fetchGrammarOk table uid

/-- `syncWithCloud(userId?)` (App.tsx 673-714).

Guard: return at once if the backend is not configured or a run is in
progress.  Resolve the user as `userId` if passed, else the session
user; return silently if none.  Then, in order: read the Local Store
snapshot; push every local record via one `upsert` per record (jointly
awaited); pull both collections; bulk-write the pulled snapshot into the
Local Store; replace the working view with the pulled snapshot and
record the sync time.  Any step failure aborts the remaining steps and
runs the catch block.  A push or pull fault can only arise when a
session is active (with no session those adapter calls no-op and the
queries are never issued), hence the session match in those branches.
`isSyncing` is set during the run and reset in the `finally` block, so
its start and end values are equal and it is left unchanged here. -/
def syncWithCloud (st : AppState) (userId : Option String) (f : FaultModel) (now : String) :
    AppState × List Ev :=
  if !st.configured || st.isSyncing then (st, [])
  else
    match (match userId with | some u => some u | none => st.sessionUser) with
    | none => (st, [])
    | some _ =>
      let lw := getAllWords st.localWords
      let lg := getAllGrammar st.localGrammar
      let pushEvs := lw.map Ev.upsertWordRemote ++ lg.map Ev.upsertGrammarRemote
      match f.push, st.sessionUser with
      | PushOutcome.fail e wDone gDone, some su =>
        ({ st with
            remoteWords := pushWords st.remoteWords su (lw.filter wDone)
            remoteGrammar := pushGrammar st.remoteGrammar su (lg.filter gDone) },
         pushEvs ++ failEvents e)
      | _, _ =>
        let rw := pushWordsS st.remoteWords st.sessionUser lw
        let rg := pushGrammarS st.remoteGrammar st.sessionUser lg
        let pullEvs := [Ev.fetchWordsRemote, Ev.fetchGrammarRemote]
        match f.pull, st.sessionUser with
        | some e, some _ =>
          ({ st with remoteWords := rw, remoteGrammar := rg },
           pushEvs ++ pullEvs ++ failEvents e)
        | _, _ =>
          let cw := fetchWordsPure rw st.sessionUser
          let cg := fetchGrammarPure rg st.sessionUser
          let saveEvs := [Ev.bulkSaveWordsLocal cw, Ev.bulkSaveGrammarLocal cg]
          match f.save with
          | SaveOutcome.fail e wordsDone grammarDone =>
            ({ st with
                remoteWords := rw
                remoteGrammar := rg
                localWords := if wordsDone then bulkSaveWords st.localWords cw else st.localWords
                localGrammar :=
                  if grammarDone then bulkSaveGrammar st.localGrammar cg else st.localGrammar },
             pushEvs ++ pullEvs ++ saveEvs ++ failEvents e)
          | SaveOutcome.ok =>
            ({ st with
                remoteWords := rw
                remoteGrammar := rg
                localWords := bulkSaveWords st.localWords cw
                localGrammar := bulkSaveGrammar st.localGrammar cg
                library := cw
                grammarLibrary := cg
                lastSaved := some now },
             pushEvs ++ pullEvs ++ saveEvs)

/-! ### Record creation and mastery updates (App.tsx 731-744, 813-824) -/

/-- An analysis-result word candidate:
`Omit<Word, 'id' | 'addedAt' | 'isSaved' | 'masteryLevel'>`
(types.ts line 33). -/
structure WordCandidate where
  kanji : String
  furigana : String
  meaning : String
  type : WordType
  «example» : String
  exampleFurigana : String
  exampleTranslation : String
  conjugations : Option Conjugations
deriving DecidableEq, Repr

/-- Entry built from an analysis candidate in `handleFileUpload`
(App.tsx 731-744): fresh id, current time, not saved, mastery level 0. -/
def mkNewWord (freshId : String) (now : Nat) (c : WordCandidate) : Word :=
  { id := freshId
    kanji := c.kanji
    furigana := c.furigana
    meaning := c.meaning
    type := c.type
    «example» := c.«example»
    exampleFurigana := c.exampleFurigana
    exampleTranslation := c.exampleTranslation
    conjugations := c.conjugations
    addedAt := now
    isSaved := false
    masteryLevel := 0 }

/-- Flashcard grading direction (`'known' | 'unknown'`, App.tsx 813). -/
inductive Direction
  | known
  | unknown
deriving DecidableEq, Repr

/-- The level written by `updateMastery`:
`direction === 'known' ? 2 : 1` (App.tsx 816). -/
def masteryLevelFor (d : Direction) : Nat :=
  match d with
  | Direction.known => 2
  | Direction.unknown => 1

/-- `updateMastery(id, direction)` (App.tsx 813-824) restricted to its
local effects: look the word up in the working view; if absent do
nothing; else write the new level into the view and into the Local Store
via `db.updateWord(id, ...)` with a partial update supplying only
`masteryLevel`.  Returns the updated view and store. -/
def updateMastery (lib store : List Word) (wid : String) (d : Direction) :
    List Word × List Word :=
  match lib.find? (fun w => w.id == wid) with
  | none => (lib, store)
  | some w =>
    let level := masteryLevelFor d
    let updatedWord := { w with masteryLevel := level }
    (lib.map (fun x => if x.id == wid then updatedWord else x),
     updateWord store wid { masteryLevel := some level })

/-! ### Helper lemmas about keyed stores -/

/-- Some entry with id `a` is in the word list. -/
def hasWordId (ws : List Word) (a : String) : Prop :=
  ∃ w ∈ ws, w.id = a

/-- Some entry with id `a` is in the grammar list. -/
def hasGrammarId (gs : List GrammarPoint) (a : String) : Prop :=
  ∃ g ∈ gs, g.id = a

/-- The backend `words` table holds a row with id `a` owned by account `uid`. -/
def ScopedWordId (t : List WordRow) (uid a : String) : Prop :=
  ∃ r ∈ t, r.user_id = uid ∧ r.id = a

/-- The backend `grammar_points` table holds a row with id `a` owned by `uid`. -/
def ScopedGrammarId (t : List GrammarRow) (uid a : String) : Prop :=
  ∃ r ∈ t, r.user_id = uid ∧ r.id = a

instance (ws : List Word) (a : String) : Decidable (hasWordId ws a) :=
  inferInstanceAs (Decidable (∃ w ∈ ws, w.id = a))

instance (gs : List GrammarPoint) (a : String) : Decidable (hasGrammarId gs a) :=
  inferInstanceAs (Decidable (∃ g ∈ gs, g.id = a))

instance (t : List WordRow) (uid a : String) : Decidable (ScopedWordId t uid a) :=
  inferInstanceAs (Decidable (∃ r ∈ t, r.user_id = uid ∧ r.id = a))

instance (t : List GrammarRow) (uid a : String) : Decidable (ScopedGrammarId t uid a) :=
  inferInstanceAs (Decidable (∃ r ∈ t, r.user_id = uid ∧ r.id = a))

theorem mem_putByKey_self {α : Type} (key : α → String) (xs : List α) (x : α) :
    x ∈ putByKey key xs x := by
  unfold putByKey
  by_cases h : xs.any (fun y => key y == key x) = true
  · simp only [h, if_true, List.mem_map]
    obtain ⟨y, hy, hk⟩ := List.any_eq_true.mp h
    exact ⟨y, hy, by simp [hk]⟩
  · simp [h]

theorem mem_putByKey_of_key_ne {α : Type} (key : α → String) {xs : List α} {y x : α}
    (hy : y ∈ xs) (hne : key y ≠ key x) : y ∈ putByKey key xs x := by
  unfold putByKey
  by_cases h : xs.any (fun z => key z == key x) = true
  · simp only [h, if_true, List.mem_map]
    exact ⟨y, hy, by simp [beq_iff_eq, hne]⟩
  · simp [h, hy]

theorem keys_putByKey {α : Type} (key : α → String) (xs : List α) (x : α) (a : String) :
    a ∈ (putByKey key xs x).map key ↔ a ∈ xs.map key ∨ a = key x := by
  unfold putByKey
  by_cases h : xs.any (fun y => key y == key x) = true
  · have hmap : (xs.map (fun y => if key y == key x then x else y)).map key = xs.map key := by
      rw [List.map_map]
      apply List.map_congr_left
      intro y _
      by_cases hk : (key y == key x) = true
      · simp only [Function.comp_apply, if_pos hk]
        exact (eq_of_beq hk).symm
      · simp only [Function.comp_apply, if_neg hk]
    have hx : key x ∈ xs.map key := by
      obtain ⟨y, hy, hk⟩ := List.any_eq_true.mp h
      exact List.mem_map.mpr ⟨y, hy, eq_of_beq hk⟩
    simp only [h, if_true, hmap]
    constructor
    · exact Or.inl
    · rintro (ha | rfl)
      · exact ha
      · exact hx
  · simp [h, or_comm, eq_comm]

theorem keys_bulkPutByKey {α : Type} (key : α → String) (xs ns : List α) (a : String) :
    a ∈ (bulkPutByKey key xs ns).map key ↔ a ∈ xs.map key ∨ a ∈ ns.map key := by
  induction ns generalizing xs with
  | nil => simp [bulkPutByKey]
  | cons n rest ih =>
    have : bulkPutByKey key xs (n :: rest) = bulkPutByKey key (putByKey key xs n) rest := rfl
    rw [this, ih, keys_putByKey]
    simp only [List.map_cons, List.mem_cons]
    tauto

theorem scopedWordId_putByKey {t : List WordRow} {uid a : String} {p : WordRow}
    (hp : p.user_id = uid) (h : ScopedWordId t uid a) :
    ScopedWordId (putByKey WordRow.id t p) uid a := by
  obtain ⟨r, hr, hru, hra⟩ := h
  by_cases hid : r.id = p.id
  · exact ⟨p, mem_putByKey_self _ _ _, hp, by rw [← hid, hra]⟩
  · exact ⟨r, mem_putByKey_of_key_ne _ hr hid, hru, hra⟩

theorem scopedGrammarId_putByKey {t : List GrammarRow} {uid a : String} {p : GrammarRow}
    (hp : p.user_id = uid) (h : ScopedGrammarId t uid a) :
    ScopedGrammarId (putByKey GrammarRow.id t p) uid a := by
  obtain ⟨r, hr, hru, hra⟩ := h
  by_cases hid : r.id = p.id
  · exact ⟨p, mem_putByKey_self _ _ _, hp, by rw [← hid, hra]⟩
  · exact ⟨r, mem_putByKey_of_key_ne _ hr hid, hru, hra⟩

theorem scopedWordId_pushWords {uid a : String} (ws : List Word) {t : List WordRow}
    (h : ScopedWordId t uid a) : ScopedWordId (pushWords t uid ws) uid a := by
  induction ws generalizing t with
  | nil => exact h
  | cons w rest ih => exact ih (scopedWordId_putByKey rfl h)

theorem scopedGrammarId_pushGrammar {uid a : String} (gs : List GrammarPoint)
    {t : List GrammarRow} (h : ScopedGrammarId t uid a) :
    ScopedGrammarId (pushGrammar t uid gs) uid a := by
  induction gs generalizing t with
  | nil => exact h
  | cons g rest ih => exact ih (scopedGrammarId_putByKey rfl h)

theorem scopedWordId_pushWords_of_mem {uid : String} {ws : List Word} {w : Word}
    (hw : w ∈ ws) (t : List WordRow) : ScopedWordId (pushWords t uid ws) uid w.id := by
  induction ws generalizing t with
  | nil => cases hw
  | cons x rest ih =>
    rcases List.mem_cons.mp hw with rfl | h
    · exact scopedWordId_pushWords rest ⟨wordToRow uid w, mem_putByKey_self _ _ _, rfl, rfl⟩
    · exact ih h _

theorem scopedGrammarId_pushGrammar_of_mem {uid : String} {gs : List GrammarPoint}
    {g : GrammarPoint} (hg : g ∈ gs) (t : List GrammarRow) :
    ScopedGrammarId (pushGrammar t uid gs) uid g.id := by
  induction gs generalizing t with
  | nil => cases hg
  | cons x rest ih =>
    rcases List.mem_cons.mp hg with rfl | h
    · exact scopedGrammarId_pushGrammar rest ⟨grammarToRow uid g, mem_putByKey_self _ _ _, rfl, rfl⟩
    · exact ih h _

theorem hasWordId_fetchWordsOk {t : List WordRow} {uid a : String}
    (h : ScopedWordId t uid a) : hasWordId (fetchWordsOk t uid) a := by
  obtain ⟨r, hr, hru, hra⟩ := h
  refine ⟨rowToWord r, ?_, hra⟩
  apply List.mem_map_of_mem
  have hf : r ∈ t.filter (fun r => r.user_id == uid) :=
    List.mem_filter.mpr ⟨hr, by simp [hru]⟩
  exact ((List.perm_insertionSort wordRowDesc _).mem_iff).mpr hf

theorem hasGrammarId_fetchGrammarOk {t : List GrammarRow} {uid a : String}
    (h : ScopedGrammarId t uid a) : hasGrammarId (fetchGrammarOk t uid) a := by
  obtain ⟨r, hr, hru, hra⟩ := h
  refine ⟨rowToGrammar r, ?_, hra⟩
  apply List.mem_map_of_mem
  have hf : r ∈ t.filter (fun r => r.user_id == uid) :=
    List.mem_filter.mpr ⟨hr, by simp [hru]⟩
  exact ((List.perm_insertionSort grammarRowDesc _).mem_iff).mpr hf

theorem hasWordId_bulkSaveWords_left {store news : List Word} {a : String}
    (h : hasWordId store a) : hasWordId (bulkSaveWords store news) a := by
  obtain ⟨w, hw, hwa⟩ := h
  have : a ∈ (bulkPutByKey Word.id store news).map Word.id :=
    (keys_bulkPutByKey Word.id store news a).mpr (Or.inl (List.mem_map.mpr ⟨w, hw, hwa⟩))
  obtain ⟨w', hw', hw'a⟩ := List.mem_map.mp this
  exact ⟨w', hw', hw'a⟩

theorem hasWordId_bulkSaveWords_right {store news : List Word} {a : String}
    (h : hasWordId news a) : hasWordId (bulkSaveWords store news) a := by
  obtain ⟨w, hw, hwa⟩ := h
  have : a ∈ (bulkPutByKey Word.id store news).map Word.id :=
    (keys_bulkPutByKey Word.id store news a).mpr (Or.inr (List.mem_map.mpr ⟨w, hw, hwa⟩))
  obtain ⟨w', hw', hw'a⟩ := List.mem_map.mp this
  exact ⟨w', hw', hw'a⟩

theorem hasGrammarId_bulkSaveGrammar_left {store news : List GrammarPoint} {a : String}
    (h : hasGrammarId store a) : hasGrammarId (bulkSaveGrammar store news) a := by
  obtain ⟨g, hg, hga⟩ := h
  have : a ∈ (bulkPutByKey GrammarPoint.id store news).map GrammarPoint.id :=
    (keys_bulkPutByKey GrammarPoint.id store news a).mpr
      (Or.inl (List.mem_map.mpr ⟨g, hg, hga⟩))
  obtain ⟨g', hg', hg'a⟩ := List.mem_map.mp this
  exact ⟨g', hg', hg'a⟩

theorem hasGrammarId_bulkSaveGrammar_right {store news : List GrammarPoint} {a : String}
    (h : hasGrammarId news a) : hasGrammarId (bulkSaveGrammar store news) a := by
  obtain ⟨g, hg, hga⟩ := h
  have : a ∈ (bulkPutByKey GrammarPoint.id store news).map GrammarPoint.id :=
    (keys_bulkPutByKey GrammarPoint.id store news a).mpr
      (Or.inr (List.mem_map.mpr ⟨g, hg, hga⟩))
  obtain ⟨g', hg', hg'a⟩ := List.mem_map.mp this
  exact ⟨g', hg', hg'a⟩

theorem syncWithCloud_success (st : AppState) (uid : String) (userId : Option String)
    (now : String) (hc : st.configured = true) (hs : st.isSyncing = false)
    (hu : st.sessionUser = some uid) :
    syncWithCloud st userId noFault now =
      ({ st with
          remoteWords := pushWords st.remoteWords uid (getAllWords st.localWords)
          remoteGrammar := pushGrammar st.remoteGrammar uid (getAllGrammar st.localGrammar)
          localWords := bulkSaveWords st.localWords
            (fetchWordsOk (pushWords st.remoteWords uid (getAllWords st.localWords)) uid)
          localGrammar := bulkSaveGrammar st.localGrammar
            (fetchGrammarOk (pushGrammar st.remoteGrammar uid (getAllGrammar st.localGrammar)) uid)
          library := fetchWordsOk (pushWords st.remoteWords uid (getAllWords st.localWords)) uid
          grammarLibrary :=
            fetchGrammarOk (pushGrammar st.remoteGrammar uid (getAllGrammar st.localGrammar)) uid
          lastSaved := some now },
       (getAllWords st.localWords).map Ev.upsertWordRemote ++
         (getAllGrammar st.localGrammar).map Ev.upsertGrammarRemote ++
         [Ev.fetchWordsRemote, Ev.fetchGrammarRemote] ++
         [Ev.bulkSaveWordsLocal
            (fetchWordsOk (pushWords st.remoteWords uid (getAllWords st.localWords)) uid),
          Ev.bulkSaveGrammarLocal
            (fetchGrammarOk (pushGrammar st.remoteGrammar uid (getAllGrammar st.localGrammar))
              uid)]) := by
  cases userId with
  | none =>
    simp [syncWithCloud, hc, hs, hu, noFault, pushWordsS, pushGrammarS, fetchWordsPure,
      fetchGrammarPure]
  | some u =>
    simp [syncWithCloud, hc, hs, hu, noFault, pushWordsS, pushGrammarS, fetchWordsPure,
      fetchGrammarPure]

/-! ### Sample data for witnesses -/

/-- A concrete vocabulary entry used by witnesses. -/
def wSample : Word :=
  { id := "a"
    kanji := "水"
    furigana := "みず"
    meaning := "water"
    type := WordType.noun
    «example» := "水を飲む"
    exampleFurigana := "みずをのむ"
    exampleTranslation := "drink water"
    conjugations := none
    addedAt := 5
    isSaved := false
    masteryLevel := 0 }

/-- A concrete grammar entry used by witnesses. -/
def gSample : GrammarPoint :=
  { id := "g1"
    point := "ながら"
    explanation := "while doing"
    «example» := "歩きながら話す"
    addedAt := 4
    rating := 0 }

/-- A concrete backend word row owned by account `u`, used by witnesses. -/
def rowSampleB : WordRow :=
  { id := "b"
    user_id := "u"
    kanji := "火"
    furigana := "ひ"
    meaning := "fire"
    type := WordType.noun
    «example» := ""
    example_furigana := ""
    example_translation := ""
    conjugations := none
    added_at := 3
    is_saved := false
    mastery_level := 1 }

/-- A concrete backend grammar row owned by account `u`. -/
def growSampleC : GrammarRow :=
  { id := "c"
    user_id := "u"
    point := "けど"
    explanation := "but"
    «example» := ""
    added_at := 2
    rating := 1 }

/-- State with one local word, one remote word row, account `u` active. -/
def stTwo : AppState :=
  { localWords := [wSample]
    localGrammar := [gSample]
    remoteWords := [rowSampleB]
    remoteGrammar := [growSampleC]
    library := [wSample]
    grammarLibrary := [gSample]
    configured := true
    sessionUser := some "u"
    isSyncing := true
    lastSaved := none }

/-- `stTwo` with no run in progress. -/
def stIdle : AppState :=
  { stTwo with isSyncing := false }

/-- `stIdle` with no active account session. -/
def stNoUser : AppState :=
  { stIdle with sessionUser := none }

/-! ### Claims -/

/-- Claim C4: invoking the Sync Coordinator while a run is already in
progress is rejected as a no-op: `syncWithCloud` returns with the state
untouched and an empty operation trace (no Remote Store calls, no Local
Store writes); the rejected call is dropped, not deferred. -/
theorem sync_reentrant_noop (st : AppState) (userId : Option String) (f : FaultModel)
    (now : String) (h : st.isSyncing = true) :
    syncWithCloud st userId f now = (st, []) := by
  simp [syncWithCloud, h]

/-- Witness for C4 at a concrete in-progress state. -/
theorem sync_reentrant_noop_witness :
    syncWithCloud stTwo none noFault "12:00" = (stTwo, []) :=
  sync_reentrant_noop stTwo none noFault "12:00" rfl

/-- Claim C5: invoking sync with no active account (no `userId` argument
and no session user) aborts silently: empty operation trace (zero Remote
Store calls, no alert) and the state, the Local Store included, is
unchanged. -/
theorem sync_no_account_noop (st : AppState) (f : FaultModel) (now : String)
    (h : st.sessionUser = none) :
    syncWithCloud st none f now = (st, []) := by
  by_cases hg : (!st.configured || st.isSyncing) = true
  · simp [syncWithCloud, hg]
  · simp [syncWithCloud, hg, h]

/-- Witness for C5 at a concrete no-account state. -/
theorem sync_no_account_noop_witness :
    syncWithCloud stNoUser none noFault "12:00" = (stNoUser, []) :=
  sync_no_account_noop stNoUser noFault "12:00" rfl

/-- Claim C7: translating a `Word` to the remote row shape as `upsertWord`
does (camelCase fields to snake_case columns plus the owning account's
`user_id`), then translating that row back as `fetchWords` does, yields
exactly the original entry. -/
theorem word_row_roundtrip (uid : String) (w : Word) :
    rowToWord (wordToRow uid w) = w := rfl

/-- Claim C8: `getAllWords` and `getAllGrammar` are total functions (never
fail), return the empty sequence on the empty (uninitialized) store, and
for every store state return a permutation of the stored entries that is
pairwise sorted by `addedAt` descending. -/
theorem getAll_sorted_desc (ws : List Word) (gs : List GrammarPoint) :
    getAllWords [] = [] ∧ getAllGrammar [] = [] ∧
    (getAllWords ws).Perm ws ∧
    List.Pairwise (fun a b => b.addedAt ≤ a.addedAt) (getAllWords ws) ∧
    (getAllGrammar gs).Perm gs ∧
    List.Pairwise (fun a b => b.addedAt ≤ a.addedAt) (getAllGrammar gs) :=
  ⟨rfl, rfl, List.perm_insertionSort _ _, List.sorted_insertionSort wordDesc ws,
    List.perm_insertionSort _ _, List.sorted_insertionSort grammarDesc gs⟩

/-- Claim C1: after a successful sync run (push, pull and local write all
succeed), every id present before the run in the Local Store or in the
account-scoped Remote Store is present afterwards in both; the Local
Store never loses an id as a side effect of sync.  Stated for both
collections. -/
theorem sync_union (st : AppState) (uid : String) (now : String) (a : String)
    (hc : st.configured = true) (hs : st.isSyncing = false)
    (hu : st.sessionUser = some uid) :
    (hasWordId st.localWords a ∨ ScopedWordId st.remoteWords uid a →
      hasWordId (syncWithCloud st none noFault now).1.localWords a ∧
        ScopedWordId (syncWithCloud st none noFault now).1.remoteWords uid a) ∧
    (hasGrammarId st.localGrammar a ∨ ScopedGrammarId st.remoteGrammar uid a →
      hasGrammarId (syncWithCloud st none noFault now).1.localGrammar a ∧
        ScopedGrammarId (syncWithCloud st none noFault now).1.remoteGrammar uid a) := by
  rw [syncWithCloud_success st uid none now hc hs hu]
  constructor
  · rintro (hl | hr)
    · obtain ⟨w, hw, hwa⟩ := hl
      have hwlw : w ∈ getAllWords st.localWords :=
        ((List.perm_insertionSort wordDesc _).mem_iff).mpr hw
      have hscoped :
          ScopedWordId (pushWords st.remoteWords uid (getAllWords st.localWords)) uid a :=
        hwa ▸ scopedWordId_pushWords_of_mem hwlw st.remoteWords
      exact ⟨hasWordId_bulkSaveWords_right (hasWordId_fetchWordsOk hscoped), hscoped⟩
    · have hscoped := scopedWordId_pushWords (getAllWords st.localWords) hr
      exact ⟨hasWordId_bulkSaveWords_right (hasWordId_fetchWordsOk hscoped), hscoped⟩
  · rintro (hl | hr)
    · obtain ⟨g, hg, hga⟩ := hl
      have hglg : g ∈ getAllGrammar st.localGrammar :=
        ((List.perm_insertionSort grammarDesc _).mem_iff).mpr hg
      have hscoped :
          ScopedGrammarId (pushGrammar st.remoteGrammar uid (getAllGrammar st.localGrammar))
            uid a :=
        hga ▸ scopedGrammarId_pushGrammar_of_mem hglg st.remoteGrammar
      exact ⟨hasGrammarId_bulkSaveGrammar_right (hasGrammarId_fetchGrammarOk hscoped), hscoped⟩
    · have hscoped := scopedGrammarId_pushGrammar (getAllGrammar st.localGrammar) hr
      exact ⟨hasGrammarId_bulkSaveGrammar_right (hasGrammarId_fetchGrammarOk hscoped), hscoped⟩

/-- Witness for C1: on a run over a state whose Local Store holds word
`a` and whose Remote Store holds a row `b` for the account, both stores
contain both ids afterwards. -/
theorem sync_union_witness :
    (hasWordId (syncWithCloud stIdle none noFault "12:00").1.localWords "a" ∧
      ScopedWordId (syncWithCloud stIdle none noFault "12:00").1.remoteWords "u" "a") ∧
    (hasWordId (syncWithCloud stIdle none noFault "12:00").1.localWords "b" ∧
      ScopedWordId (syncWithCloud stIdle none noFault "12:00").1.remoteWords "u" "b") :=
  ⟨(sync_union stIdle "u" "12:00" "a" rfl rfl rfl).1 (Or.inl (by decide)),
   (sync_union stIdle "u" "12:00" "b" rfl rfl rfl).1 (Or.inr (by decide))⟩

/-- Claim C2: a successful sync run performs its steps in strict order —
read the Local Store snapshot, issue one remote upsert per local record,
pull both remote collections, bulk-write the pulled snapshot into the
Local Store (insert-or-overwrite by id, never deleting ids absent
remotely), replace the working view with the pulled snapshot and record
the last-synced timestamp.  The operation trace and the resulting state
are exactly these. -/
theorem sync_step_order (st : AppState) (uid : String) (userId : Option String) (now : String)
    (hc : st.configured = true) (hs : st.isSyncing = false)
    (hu : st.sessionUser = some uid) :
    (syncWithCloud st userId noFault now).2 =
        (getAllWords st.localWords).map Ev.upsertWordRemote ++
          (getAllGrammar st.localGrammar).map Ev.upsertGrammarRemote ++
          [Ev.fetchWordsRemote, Ev.fetchGrammarRemote] ++
          [Ev.bulkSaveWordsLocal
              (fetchWordsOk (pushWords st.remoteWords uid (getAllWords st.localWords)) uid),
            Ev.bulkSaveGrammarLocal
              (fetchGrammarOk (pushGrammar st.remoteGrammar uid (getAllGrammar st.localGrammar))
                uid)] ∧
    (syncWithCloud st userId noFault now).1.remoteWords =
        pushWords st.remoteWords uid (getAllWords st.localWords) ∧
    (syncWithCloud st userId noFault now).1.remoteGrammar =
        pushGrammar st.remoteGrammar uid (getAllGrammar st.localGrammar) ∧
    (syncWithCloud st userId noFault now).1.localWords =
        bulkSaveWords st.localWords
          (fetchWordsOk (pushWords st.remoteWords uid (getAllWords st.localWords)) uid) ∧
    (syncWithCloud st userId noFault now).1.localGrammar =
        bulkSaveGrammar st.localGrammar
          (fetchGrammarOk (pushGrammar st.remoteGrammar uid (getAllGrammar st.localGrammar))
            uid) ∧
    (∀ a, hasWordId st.localWords a →
        hasWordId (syncWithCloud st userId noFault now).1.localWords a) ∧
    (∀ a, hasGrammarId st.localGrammar a →
        hasGrammarId (syncWithCloud st userId noFault now).1.localGrammar a) ∧
    (syncWithCloud st userId noFault now).1.library =
        fetchWordsOk (pushWords st.remoteWords uid (getAllWords st.localWords)) uid ∧
    (syncWithCloud st userId noFault now).1.grammarLibrary =
        fetchGrammarOk (pushGrammar st.remoteGrammar uid (getAllGrammar st.localGrammar)) uid ∧
    (syncWithCloud st userId noFault now).1.lastSaved = some now := by
  rw [syncWithCloud_success st uid userId now hc hs hu]
  refine ⟨rfl, rfl, rfl, rfl, rfl, ?_, ?_, rfl, rfl, rfl⟩
  · intro a ha
    exact hasWordId_bulkSaveWords_left ha
  · intro a ha
    exact hasGrammarId_bulkSaveGrammar_left ha

/-- Witness for C2: the concrete run over `stIdle` records the sync
timestamp. -/
theorem sync_step_order_witness :
    (syncWithCloud stIdle none noFault "12:00").1.lastSaved = some "12:00" :=
  (sync_step_order stIdle "u" none "12:00" rfl rfl rfl).2.2.2.2.2.2.2.2.2

/-- Counterexample to C6 as stated: with no active account the fetch-all
operations do not fail with an authentication error — they return
successfully with the empty list, even when the backend tables are
nonempty. -/
theorem fetch_no_account_counterexample :
    fetchWords [rowSampleB] none none = Except.ok [] ∧
    fetchGrammar [growSampleC] none none = Except.ok [] :=
  ⟨rfl, rfl⟩

/-- Claim C6 (amended): `fetchWords` / `fetchGrammar` return the empty
sequence (successfully, raising nothing) when no account is active; fail
with the backend error when an account is active and the backend fails;
and when an account is active and the backend succeeds return exactly
the account-scoped entries ordered by creation timestamp descending. -/
theorem fetch_all_contract :
    (∀ (table : List WordRow) (fault : Option ErrInfo),
        fetchWords table none fault = Except.ok []) ∧
    (∀ (table : List GrammarRow) (fault : Option ErrInfo),
        fetchGrammar table none fault = Except.ok []) ∧
    (∀ (table : List WordRow) (uid : String) (e : ErrInfo),
        fetchWords table (some uid) (some e) = Except.error e) ∧
    (∀ (table : List GrammarRow) (uid : String) (e : ErrInfo),
        fetchGrammar table (some uid) (some e) = Except.error e) ∧
    (∀ (table : List WordRow) (uid : String),
        fetchWords table (some uid) none = Except.ok (fetchWordsOk table uid) ∧
        (fetchWordsOk table uid).Perm
          ((table.filter (fun r => r.user_id == uid)).map rowToWord) ∧
        List.Pairwise (fun a b => b.addedAt ≤ a.addedAt) (fetchWordsOk table uid)) ∧
    (∀ (table : List GrammarRow) (uid : String),
        fetchGrammar table (some uid) none = Except.ok (fetchGrammarOk table uid) ∧
        (fetchGrammarOk table uid).Perm
          ((table.filter (fun r => r.user_id == uid)).map rowToGrammar) ∧
        List.Pairwise (fun a b => b.addedAt ≤ a.addedAt) (fetchGrammarOk table uid)) := by
  refine ⟨fun _ _ => rfl, fun _ _ => rfl, fun _ _ _ => rfl, fun _ _ _ => rfl, ?_, ?_⟩
  · intro table uid
    refine ⟨rfl, (List.perm_insertionSort wordRowDesc _).map rowToWord, ?_⟩
    exact (List.sorted_insertionSort wordRowDesc _).map rowToWord (fun a b h => h)
  · intro table uid
    refine ⟨rfl, (List.perm_insertionSort grammarRowDesc _).map rowToGrammar, ?_⟩
    exact (List.sorted_insertionSort grammarRowDesc _).map rowToGrammar (fun a b h => h)

/-- Claim C9: `updateWord` and `updateGrammar` merge only the supplied
fields: every field not named in the partial update keeps its previous
value, every record whose id differs from the target is unchanged (same
position, same value), and when no record with the given id exists the
operation is a silent no-op. -/
theorem update_partial_merge (ws : List Word) (gs : List GrammarPoint) (wid gid : String)
    (pw : WordPatch) (pg : GrammarPatch) :
    ((∀ w ∈ ws, w.id ≠ wid) → updateWord ws wid pw = ws) ∧
    (∀ (i : Nat) (w : Word), ws[i]? = some w → w.id ≠ wid →
        (updateWord ws wid pw)[i]? = some w) ∧
    (∀ (i : Nat) (w : Word), ws[i]? = some w → w.id = wid →
        (updateWord ws wid pw)[i]? = some (applyWordPatch w pw)) ∧
    (∀ w : Word,
      (pw.id = none → (applyWordPatch w pw).id = w.id) ∧
      (pw.kanji = none → (applyWordPatch w pw).kanji = w.kanji) ∧
      (pw.furigana = none → (applyWordPatch w pw).furigana = w.furigana) ∧
      (pw.meaning = none → (applyWordPatch w pw).meaning = w.meaning) ∧
      (pw.type = none → (applyWordPatch w pw).type = w.type) ∧
      (pw.«example» = none → (applyWordPatch w pw).«example» = w.«example») ∧
      (pw.exampleFurigana = none →
        (applyWordPatch w pw).exampleFurigana = w.exampleFurigana) ∧
      (pw.exampleTranslation = none →
        (applyWordPatch w pw).exampleTranslation = w.exampleTranslation) ∧
      (pw.conjugations = none → (applyWordPatch w pw).conjugations = w.conjugations) ∧
      (pw.addedAt = none → (applyWordPatch w pw).addedAt = w.addedAt) ∧
      (pw.isSaved = none → (applyWordPatch w pw).isSaved = w.isSaved) ∧
      (pw.masteryLevel = none → (applyWordPatch w pw).masteryLevel = w.masteryLevel)) ∧
    ((∀ g ∈ gs, g.id ≠ gid) → updateGrammar gs gid pg = gs) ∧
    (∀ (i : Nat) (g : GrammarPoint), gs[i]? = some g → g.id ≠ gid →
        (updateGrammar gs gid pg)[i]? = some g) ∧
    (∀ (i : Nat) (g : GrammarPoint), gs[i]? = some g → g.id = gid →
        (updateGrammar gs gid pg)[i]? = some (applyGrammarPatch g pg)) ∧
    (∀ g : GrammarPoint,
      (pg.id = none → (applyGrammarPatch g pg).id = g.id) ∧
      (pg.point = none → (applyGrammarPatch g pg).point = g.point) ∧
      (pg.explanation = none → (applyGrammarPatch g pg).explanation = g.explanation) ∧
      (pg.«example» = none → (applyGrammarPatch g pg).«example» = g.«example») ∧
      (pg.addedAt = none → (applyGrammarPatch g pg).addedAt = g.addedAt) ∧
      (pg.rating = none → (applyGrammarPatch g pg).rating = g.rating)) := by
  refine ⟨?_, ?_, ?_, ?_, ?_, ?_, ?_, ?_⟩
  · intro h
    unfold updateWord
    rw [show ws.map (fun w => if w.id == wid then applyWordPatch w pw else w) =
          ws.map (fun w => w) from
        List.map_congr_left fun w hw => by simp [beq_iff_eq, h w hw]]
    exact List.map_id ws
  · intro i w hi hne
    unfold updateWord
    rw [List.getElem?_map, hi]
    simp [beq_iff_eq, hne]
  · intro i w hi heq
    unfold updateWord
    rw [List.getElem?_map, hi]
    simp [beq_iff_eq, heq]
  · intro w
    refine ⟨?_, ?_, ?_, ?_, ?_, ?_, ?_, ?_, ?_, ?_, ?_, ?_⟩ <;>
      (intro h; simp [applyWordPatch, h])
  · intro h
    unfold updateGrammar
    rw [show gs.map (fun g => if g.id == gid then applyGrammarPatch g pg else g) =
          gs.map (fun g => g) from
        List.map_congr_left fun g hg => by simp [beq_iff_eq, h g hg]]
    exact List.map_id gs
  · intro i g hi hne
    unfold updateGrammar
    rw [List.getElem?_map, hi]
    simp [beq_iff_eq, hne]
  · intro i g hi heq
    unfold updateGrammar
    rw [List.getElem?_map, hi]
    simp [beq_iff_eq, heq]
  · intro g
    refine ⟨?_, ?_, ?_, ?_, ?_, ?_⟩ <;>
      (intro h; simp [applyGrammarPatch, h])

/-- Witness for C9: updating a missing id is a silent no-op on a concrete
store, and a partial update supplying only `masteryLevel` keeps a
concrete word's `isSaved` unchanged. -/
theorem update_partial_merge_witness :
    updateWord [wSample] "zzz" { masteryLevel := some 2 } = [wSample] ∧
    (applyWordPatch wSample { masteryLevel := some 2 }).isSaved = wSample.isSaved ∧
    updateGrammar [gSample] "zzz" { rating := some 5 } = [gSample] :=
  ⟨(update_partial_merge [wSample] [gSample] "zzz" "zzz"
      { masteryLevel := some 2 } { rating := some 5 }).1 (by decide),
   ((update_partial_merge [wSample] [gSample] "zzz" "zzz"
      { masteryLevel := some 2 } { rating := some 5 }).2.2.2.1 wSample).2.2.2.2.2.2.2.2.2.2.1 rfl,
   (update_partial_merge [wSample] [gSample] "zzz" "zzz"
      { masteryLevel := some 2 } { rating := some 5 }).2.2.2.2.1 (by decide)⟩

/-- A concrete analysis candidate used by witnesses. -/
def wcSample : WordCandidate :=
  { kanji := "食べる"
    furigana := "たべる"
    meaning := "to eat"
    type := WordType.verb
    «example» := "パンを食べる"
    exampleFurigana := "ぱんをたべる"
    exampleTranslation := "eat bread"
    conjugations := none }

/-- Claim C10: every word the application itself writes has mastery level
in the set 0, 1, 2 — entries created from an analysis result start at
level 0, `updateMastery` writes only 1 (for unknown) or 2 (for known),
and if every word of the working view and of the Local Store is at a
level in that set then this still holds after `updateMastery`; level 3 is
never produced. -/
theorem mastery_level_range (freshId : String) (now : Nat) (c : WordCandidate)
    (lib store : List Word) (wid : String) (d : Direction)
    (hlib : ∀ w ∈ lib, w.masteryLevel = 0 ∨ w.masteryLevel = 1 ∨ w.masteryLevel = 2)
    (hstore : ∀ w ∈ store, w.masteryLevel = 0 ∨ w.masteryLevel = 1 ∨ w.masteryLevel = 2) :
    (mkNewWord freshId now c).masteryLevel = 0 ∧
    (masteryLevelFor d = 1 ∨ masteryLevelFor d = 2) ∧
    (∀ w ∈ (updateMastery lib store wid d).1,
        w.masteryLevel = 0 ∨ w.masteryLevel = 1 ∨ w.masteryLevel = 2) ∧
    (∀ w ∈ (updateMastery lib store wid d).2,
        w.masteryLevel = 0 ∨ w.masteryLevel = 1 ∨ w.masteryLevel = 2) := by
  have hlevel : masteryLevelFor d = 1 ∨ masteryLevelFor d = 2 := by
    cases d
    · right; rfl
    · left; rfl
  refine ⟨rfl, hlevel, ?_, ?_⟩
  · intro w hw
    unfold updateMastery at hw
    rcases hfind : lib.find? (fun w => w.id == wid) with _ | w0 <;> rw [hfind] at hw
    · exact hlib w hw
    · simp only [List.mem_map] at hw
      obtain ⟨x, hx, hxe⟩ := hw
      by_cases hid : (x.id == wid) = true
      · rw [if_pos hid] at hxe
        rw [← hxe]
        rcases hlevel with h1 | h2
        · right; left; exact h1
        · right; right; exact h2
      · rw [if_neg hid] at hxe
        exact hxe ▸ hlib x hx
  · intro w hw
    unfold updateMastery at hw
    rcases hfind : lib.find? (fun w => w.id == wid) with _ | w0 <;> rw [hfind] at hw
    · exact hstore w hw
    · simp only [updateWord, List.mem_map] at hw
      obtain ⟨x, hx, hxe⟩ := hw
      by_cases hid : (x.id == wid) = true
      · rw [if_pos hid] at hxe
        rw [← hxe]
        rcases hlevel with h1 | h2
        · right; left; simpa [applyWordPatch] using h1
        · right; right; simpa [applyWordPatch] using h2
      · rw [if_neg hid] at hxe
        exact hxe ▸ hstore x hx

/-- Witness for C10: a freshly created word starts at mastery level 0,
and the word written by grading the concrete store as known has its
level in the allowed set. -/
theorem mastery_level_range_witness :
    (mkNewWord "n1" 9 wcSample).masteryLevel = 0 ∧
    (({ wSample with masteryLevel := 2 } : Word).masteryLevel = 0 ∨
      ({ wSample with masteryLevel := 2 } : Word).masteryLevel = 1 ∨
      ({ wSample with masteryLevel := 2 } : Word).masteryLevel = 2) :=
  ⟨(mastery_level_range "n1" 9 wcSample [wSample] [wSample] "a" Direction.known
      (by decide) (by decide)).1,
   (mastery_level_range "n1" 9 wcSample [wSample] [wSample] "a" Direction.known
      (by decide) (by decide)).2.2.2 { wSample with masteryLevel := 2 } (by decide)⟩

theorem syncWithCloud_pushFail (st : AppState) (uid : String) (userId : Option String)
    (now : String) (e : ErrInfo) (wDone : Word → Bool) (gDone : GrammarPoint → Bool)
    (pl : Option ErrInfo) (sv : SaveOutcome)
    (hc : st.configured = true) (hs : st.isSyncing = false)
    (hu : st.sessionUser = some uid) :
    syncWithCloud st userId ⟨PushOutcome.fail e wDone gDone, pl, sv⟩ now =
      ({ st with
          remoteWords :=
            pushWords st.remoteWords uid ((getAllWords st.localWords).filter wDone)
          remoteGrammar :=
            pushGrammar st.remoteGrammar uid ((getAllGrammar st.localGrammar).filter gDone) },
       (getAllWords st.localWords).map Ev.upsertWordRemote ++
         (getAllGrammar st.localGrammar).map Ev.upsertGrammarRemote ++ failEvents e) := by
  cases userId <;> simp [syncWithCloud, hc, hs, hu]

theorem syncWithCloud_pullFail (st : AppState) (uid : String) (userId : Option String)
    (now : String) (e : ErrInfo) (sv : SaveOutcome)
    (hc : st.configured = true) (hs : st.isSyncing = false)
    (hu : st.sessionUser = some uid) :
    syncWithCloud st userId ⟨PushOutcome.ok, some e, sv⟩ now =
      ({ st with
          remoteWords := pushWords st.remoteWords uid (getAllWords st.localWords)
          remoteGrammar := pushGrammar st.remoteGrammar uid (getAllGrammar st.localGrammar) },
       (getAllWords st.localWords).map Ev.upsertWordRemote ++
         (getAllGrammar st.localGrammar).map Ev.upsertGrammarRemote ++
         [Ev.fetchWordsRemote, Ev.fetchGrammarRemote] ++ failEvents e) := by
  cases userId <;>
    simp [syncWithCloud, hc, hs, hu, pushWordsS, pushGrammarS]

theorem syncWithCloud_saveFail (st : AppState) (uid : String) (userId : Option String)
    (now : String) (e : ErrInfo) (wD gD : Bool)
    (hc : st.configured = true) (hs : st.isSyncing = false)
    (hu : st.sessionUser = some uid) :
    syncWithCloud st userId ⟨PushOutcome.ok, none, SaveOutcome.fail e wD gD⟩ now =
      ({ st with
          remoteWords := pushWords st.remoteWords uid (getAllWords st.localWords)
          remoteGrammar := pushGrammar st.remoteGrammar uid (getAllGrammar st.localGrammar)
          localWords :=
            if wD then
              bulkSaveWords st.localWords
                (fetchWordsOk (pushWords st.remoteWords uid (getAllWords st.localWords)) uid)
            else st.localWords
          localGrammar :=
            if gD then
              bulkSaveGrammar st.localGrammar
                (fetchGrammarOk (pushGrammar st.remoteGrammar uid (getAllGrammar st.localGrammar))
                  uid)
            else st.localGrammar },
       (getAllWords st.localWords).map Ev.upsertWordRemote ++
         (getAllGrammar st.localGrammar).map Ev.upsertGrammarRemote ++
         [Ev.fetchWordsRemote, Ev.fetchGrammarRemote] ++
         [Ev.bulkSaveWordsLocal
            (fetchWordsOk (pushWords st.remoteWords uid (getAllWords st.localWords)) uid),
          Ev.bulkSaveGrammarLocal
            (fetchGrammarOk (pushGrammar st.remoteGrammar uid (getAllGrammar st.localGrammar))
              uid)] ++ failEvents e) := by
  cases userId <;>
    simp [syncWithCloud, hc, hs, hu, pushWordsS, pushGrammarS, fetchWordsPure,
      fetchGrammarPure]

/-- Alert messages occurring in a trace, in order. -/
def alertEvents (tr : List Ev) : List String :=
  tr.filterMap (fun ev => match ev with | Ev.alert m => some m | _ => none)

theorem alertEvents_append (a b : List Ev) :
    alertEvents (a ++ b) = alertEvents a ++ alertEvents b := by
  simp [alertEvents]

theorem alertEvents_upsertWords (lw : List Word) :
    alertEvents (lw.map Ev.upsertWordRemote) = [] := by
  induction lw with
  | nil => rfl
  | cons w rest ih => simp [alertEvents, List.filterMap_cons, ih]

theorem alertEvents_upsertGrammar (lg : List GrammarPoint) :
    alertEvents (lg.map Ev.upsertGrammarRemote) = [] := by
  induction lg with
  | nil => rfl
  | cons g rest ih => simp [alertEvents, List.filterMap_cons, ih]

theorem alertEvents_failEvents (e : ErrInfo) :
    alertEvents (failEvents e) =
      if hasConfigSignature (errorMsgOf e) then [alertText (errorMsgOf e)] else [] := by
  by_cases h : hasConfigSignature (errorMsgOf e) = true <;>
    simp [failEvents, alertEvents, List.filterMap_cons, h]

/-- The alert text always contains the derived error message. -/
theorem alertText_includes (msg : String) : strIncludes (alertText msg) msg = true := by
  unfold strIncludes alertText
  rw [decide_eq_true_eq]
  exact ⟨("雲端同步失敗: " : String).data, ("\n\n請檢查 Supabase 的 SQL 設定。" : String).data,
    by simp⟩

/-- Claim C3 (amended): when a sync step fails, the remaining steps are
aborted and the failure is surfaced as an alert (containing the derived
error message) if and only if that message contains the configuration
signature "policy" or "relation" — all other failures are only logged.
On a push or pull failure the Local Store keeps exactly the state it had
at the start of the run.  On a failure of the local bulk-write step each
collection independently either keeps its prior state or holds the
pulled snapshot: the two bulk writes are separate per-table
transactions, jointly awaited, so the words write can commit while the
grammar write fails (the Local Store is then not exactly its
start-of-step state).  The working view and the last-synced timestamp
are never touched by a failed run. -/
theorem sync_failure_handling (st : AppState) (uid : String) (userId : Option String)
    (now : String) (e : ErrInfo)
    (hc : st.configured = true) (hs : st.isSyncing = false)
    (hu : st.sessionUser = some uid) :
    (∀ (wDone : Word → Bool) (gDone : GrammarPoint → Bool) (pl : Option ErrInfo)
        (sv : SaveOutcome),
      (syncWithCloud st userId ⟨PushOutcome.fail e wDone gDone, pl, sv⟩ now).1.localWords =
          st.localWords ∧
      (syncWithCloud st userId ⟨PushOutcome.fail e wDone gDone, pl, sv⟩ now).1.localGrammar =
          st.localGrammar ∧
      (syncWithCloud st userId ⟨PushOutcome.fail e wDone gDone, pl, sv⟩ now).1.library =
          st.library ∧
      (syncWithCloud st userId ⟨PushOutcome.fail e wDone gDone, pl, sv⟩ now).1.grammarLibrary =
          st.grammarLibrary ∧
      (syncWithCloud st userId ⟨PushOutcome.fail e wDone gDone, pl, sv⟩ now).1.lastSaved =
          st.lastSaved ∧
      Ev.fetchWordsRemote ∉
          (syncWithCloud st userId ⟨PushOutcome.fail e wDone gDone, pl, sv⟩ now).2 ∧
      Ev.fetchGrammarRemote ∉
          (syncWithCloud st userId ⟨PushOutcome.fail e wDone gDone, pl, sv⟩ now).2 ∧
      (∀ l, Ev.bulkSaveWordsLocal l ∉
          (syncWithCloud st userId ⟨PushOutcome.fail e wDone gDone, pl, sv⟩ now).2) ∧
      (∀ l, Ev.bulkSaveGrammarLocal l ∉
          (syncWithCloud st userId ⟨PushOutcome.fail e wDone gDone, pl, sv⟩ now).2) ∧
      alertEvents (syncWithCloud st userId ⟨PushOutcome.fail e wDone gDone, pl, sv⟩ now).2 =
        (if hasConfigSignature (errorMsgOf e) then [alertText (errorMsgOf e)] else [])) ∧
    (∀ sv : SaveOutcome,
      (syncWithCloud st userId ⟨PushOutcome.ok, some e, sv⟩ now).1.localWords =
          st.localWords ∧
      (syncWithCloud st userId ⟨PushOutcome.ok, some e, sv⟩ now).1.localGrammar =
          st.localGrammar ∧
      (syncWithCloud st userId ⟨PushOutcome.ok, some e, sv⟩ now).1.library = st.library ∧
      (syncWithCloud st userId ⟨PushOutcome.ok, some e, sv⟩ now).1.grammarLibrary =
          st.grammarLibrary ∧
      (syncWithCloud st userId ⟨PushOutcome.ok, some e, sv⟩ now).1.lastSaved = st.lastSaved ∧
      (∀ l, Ev.bulkSaveWordsLocal l ∉
          (syncWithCloud st userId ⟨PushOutcome.ok, some e, sv⟩ now).2) ∧
      (∀ l, Ev.bulkSaveGrammarLocal l ∉
          (syncWithCloud st userId ⟨PushOutcome.ok, some e, sv⟩ now).2) ∧
      alertEvents (syncWithCloud st userId ⟨PushOutcome.ok, some e, sv⟩ now).2 =
        (if hasConfigSignature (errorMsgOf e) then [alertText (errorMsgOf e)] else [])) ∧
    (∀ wD gD : Bool,
      (syncWithCloud st userId ⟨PushOutcome.ok, none, SaveOutcome.fail e wD gD⟩
            now).1.localWords =
          (if wD then
            bulkSaveWords st.localWords
              (fetchWordsOk (pushWords st.remoteWords uid (getAllWords st.localWords)) uid)
          else st.localWords) ∧
      (syncWithCloud st userId ⟨PushOutcome.ok, none, SaveOutcome.fail e wD gD⟩
            now).1.localGrammar =
          (if gD then
            bulkSaveGrammar st.localGrammar
              (fetchGrammarOk (pushGrammar st.remoteGrammar uid (getAllGrammar st.localGrammar))
                uid)
          else st.localGrammar) ∧
      (syncWithCloud st userId ⟨PushOutcome.ok, none, SaveOutcome.fail e wD gD⟩
            now).1.library = st.library ∧
      (syncWithCloud st userId ⟨PushOutcome.ok, none, SaveOutcome.fail e wD gD⟩
            now).1.grammarLibrary = st.grammarLibrary ∧
      (syncWithCloud st userId ⟨PushOutcome.ok, none, SaveOutcome.fail e wD gD⟩
            now).1.lastSaved = st.lastSaved ∧
      alertEvents
          (syncWithCloud st userId ⟨PushOutcome.ok, none, SaveOutcome.fail e wD gD⟩ now).2 =
        (if hasConfigSignature (errorMsgOf e) then [alertText (errorMsgOf e)] else [])) ∧
    strIncludes (alertText (errorMsgOf e)) (errorMsgOf e) = true := by
  refine ⟨?_, ?_, ?_, alertText_includes (errorMsgOf e)⟩
  · intro wDone gDone pl sv
    rw [syncWithCloud_pushFail st uid userId now e wDone gDone pl sv hc hs hu]
    refine ⟨rfl, rfl, rfl, rfl, rfl, ?_, ?_, ?_, ?_, ?_⟩
    · by_cases hsig : hasConfigSignature (errorMsgOf e) = true <;>
        simp [failEvents, hsig]
    · by_cases hsig : hasConfigSignature (errorMsgOf e) = true <;>
        simp [failEvents, hsig]
    · intro l
      by_cases hsig : hasConfigSignature (errorMsgOf e) = true <;>
        simp [failEvents, hsig]
    · intro l
      by_cases hsig : hasConfigSignature (errorMsgOf e) = true <;>
        simp [failEvents, hsig]
    · rw [alertEvents_append, alertEvents_append, alertEvents_upsertWords,
        alertEvents_upsertGrammar, alertEvents_failEvents]
      simp
  · intro sv
    rw [syncWithCloud_pullFail st uid userId now e sv hc hs hu]
    refine ⟨rfl, rfl, rfl, rfl, rfl, ?_, ?_, ?_⟩
    · intro l
      by_cases hsig : hasConfigSignature (errorMsgOf e) = true <;>
        simp [failEvents, hsig]
    · intro l
      by_cases hsig : hasConfigSignature (errorMsgOf e) = true <;>
        simp [failEvents, hsig]
    · rw [alertEvents_append, alertEvents_append, alertEvents_append,
        alertEvents_upsertWords, alertEvents_upsertGrammar, alertEvents_failEvents]
      simp [alertEvents]
  · intro wD gD
    rw [syncWithCloud_saveFail st uid userId now e wD gD hc hs hu]
    refine ⟨rfl, rfl, rfl, rfl, rfl, ?_⟩
    rw [alertEvents_append, alertEvents_append, alertEvents_append, alertEvents_append,
      alertEvents_upsertWords, alertEvents_upsertGrammar, alertEvents_failEvents]
    simp [alertEvents]

/-- Witness for C3 (amended): a push failure whose message names a
row-level security policy produces exactly one alert, carrying the
alert text derived from that message. -/
theorem sync_failure_handling_witness :
    alertEvents
        (syncWithCloud stIdle none
          ⟨PushOutcome.fail { message := "violates row-level security policy", details := "" }
              (fun _ => false) (fun _ => false),
            none, SaveOutcome.ok⟩ "12:00").2 =
      (if hasConfigSignature
            (errorMsgOf { message := "violates row-level security policy", details := "" })
        then
          [alertText
            (errorMsgOf { message := "violates row-level security policy", details := "" })]
        else []) :=
  ((sync_failure_handling stIdle "u" none "12:00"
      { message := "violates row-level security policy", details := "" }
      rfl rfl rfl).1 (fun _ => false) (fun _ => false) none
      SaveOutcome.ok).2.2.2.2.2.2.2.2.2

/-- Counterexample to C3 as stated: a run over `stIdle` in which push and
pull succeed, the local words bulk write commits, and the local grammar
bulk write fails, leaves the Local Store different from the state it had
at the start of the failed local-write step (which is `stIdle.localWords`,
since neither push nor pull writes the Local Store): the pulled remote
word has been written into the words table. -/
theorem sync_failure_counterexample :
    (syncWithCloud stIdle none
        ⟨PushOutcome.ok, none,
          SaveOutcome.fail { message := "network glitch", details := "" } true false⟩
        "12:00").1.localWords ≠ stIdle.localWords := by
  decide
